import Mathlib

/-!
Verification development for the qcodes matplotlib plotting layer
(`qcodes/plots/qcmatplotlib.py`).

The embedding models:
* the grid-corner correction performed per axis inside
  `MatPlot._draw_pcolormesh` (masked / NaN entries become `none`,
  finite samples become `some q` with `q : ℚ`);
* the subplot-shape computation of `MatPlot._init_plot`;
* the early "nothing to draw" return and colorbar handling of
  `MatPlot._draw_pcolormesh`;
* the axis-label update loop `MatPlot._update_labels`;
* the trace-adding entry point `MatPlot.add_to_plot` (numpy-style
  integer indexing into the flat subplot array);
* the `ClickWidget` cross-section inspector: `remove_plots`,
  `toggle_sum` and `_click` (numpy `argmin` of absolute differences).

Masked-array arithmetic (NaN propagation) is modelled by `Option ℚ`
with `none` for a masked / NaN entry.
-/

/-- Masked addition: NaN / masked entries propagate. -/
def mAdd : Option ℚ → Option ℚ → Option ℚ
  | some a, some b => some (a + b)
  | _, _ => none

/-- Masked subtraction: NaN / masked entries propagate. -/
def mSub : Option ℚ → Option ℚ → Option ℚ
  | some a, some b => some (a - b)
  | _, _ => none

/-- Masked halving, modelling `/ 2` on possibly-NaN values. -/
def mHalf : Option ℚ → Option ℚ
  | some a => some (a / 2)
  | none => none

/-- Element read `l[i]` (out of range gives a masked value; the source
only reads in-range indices). -/
def nthv (l : List (Option ℚ)) (i : ℕ) : Option ℚ :=
  (l.get? i).getD none

/-- Negative-index read: numpy `l[-i]` is `l[len(l) - i]`. -/
def nthBack (l : List (Option ℚ)) (i : ℕ) : Option ℚ :=
  nthv l (l.length - i)

/-- Replace the first element, as in `arr_pad[0] += ...`. -/
def updFirst (f : Option ℚ → Option ℚ) : List (Option ℚ) → List (Option ℚ)
  | [] => []
  | v :: t => f v :: t

/-- Replace the last element, as in `arr_pad[-1] += ...`. -/
def updLast (f : Option ℚ → Option ℚ) : List (Option ℚ) → List (Option ℚ)
  | [] => []
  | [v] => [f v]
  | v :: w :: t => v :: updLast f (w :: t)

/-- `np.pad(arr, (1, 1), mode='symmetric')`: repeat the first element in
front and the last element at the back. -/
def extrapPad (arr : List (Option ℚ)) : List (Option ℚ) :=
  arr.headD none :: (arr ++ [arr.getLastD none])

/-- `arr_pad[0] += arr_pad[1] - arr_pad[2]`. -/
def extrapFixFirst (p : List (Option ℚ)) : List (Option ℚ) :=
  updFirst (fun v => mAdd v (mSub (nthv p 1) (nthv p 2))) p

/-- `arr_pad[-1] += arr_pad[-2] - arr_pad[-3]`. -/
def extrapFixLast (q : List (Option ℚ)) : List (Option ℚ) :=
  updLast (fun v => mAdd v (mSub (nthBack q 2) (nthBack q 3))) q

/-- `np.ma.diff(arr_pad) / 2`: half-differences of consecutive entries. -/
def halfDiffs (p : List (Option ℚ)) : List (Option ℚ) :=
  List.zipWith (fun u v => mHalf (mSub v u)) p p.tail

/-- `np.insert(diff, 0, diff[0])`: duplicate the leading half-difference. -/
def withLead (l : List (Option ℚ)) : List (Option ℚ) :=
  l.headD none :: l

/-- The main branch of the per-axis grid-corner correction in
`MatPlot._draw_pcolormesh` (second element unmasked): symmetric pad,
extrapolate the two new boundary entries, add the half-difference
sequence (with its first value prepended), drop the final element. -/
def gridCorrectMain (arr : List (Option ℚ)) : List (Option ℚ) :=
  (List.zipWith mAdd (extrapFixLast (extrapFixFirst (extrapPad arr)))
    (withLead (halfDiffs (extrapFixLast (extrapFixFirst (extrapPad arr)))))).dropLast

/-- Per-axis grid-corner correction of `MatPlot._draw_pcolormesh`.
If `arr[1]` is masked (`np.ma.is_masked(arr[1])`), the source pads with
one leading copy of `arr[0]` and offsets the first two entries by
`-0.5` and `+0.5`; otherwise it runs the main symmetric-pad branch. -/
def gridCorrect (arr : List (Option ℚ)) : List (Option ℚ) :=
  if 2 ≤ arr.length ∧ nthv arr 1 = none then
    match arr with
    | [] => []
    | v :: rest => mAdd v (some (-(1/2))) :: mAdd v (some (1/2)) :: rest
  else gridCorrectMain arr

/-- Uniformly spaced coordinate array `a, a+d, …, a+(n-1)d`, all finite. -/
def uni (a d : ℚ) (n : ℕ) : List (Option ℚ) :=
  (List.range n).map (fun i : ℕ => some (a + (i : ℚ) * d))

/-- `v` lies strictly between `b₁` and `b₂` (in either order). -/
def strictlyBetween (v b₁ b₂ : ℚ) : Prop :=
  (b₁ < v ∧ v < b₂) ∨ (b₂ < v ∧ v < b₁)

instance (v b₁ b₂ : ℚ) : Decidable (strictlyBetween v b₁ b₂) := by
  unfold strictlyBetween; infer_instance

/-! ## Subplot grid shape (`MatPlot._init_plot`) -/

/-- `MatPlot.max_subplot_columns`. -/
def maxSubplotColumns : ℕ := 3

/-- Shape computed by `MatPlot._init_plot` when `subplots` is an integer
count: `nrows = int(np.ceil(subplots / max_subplot_columns))`,
`ncols = min(subplots, max_subplot_columns)`. -/
def initShape (n : ℕ) : ℕ × ℕ :=
  ((⌈(n : ℚ) / (maxSubplotColumns : ℚ)⌉).toNat, min n maxSubplotColumns)

/-- The spec's formula, in natural-number arithmetic, for comparison with
`initShape`: rows = ceiling of count / max_columns, columns =
min(count, max_columns). -/
def specShape (n : ℕ) : ℕ × ℕ :=
  ((n + maxSubplotColumns - 1) / maxSubplotColumns, min n maxSubplotColumns)

/-! ## Mesh drawing (`MatPlot._draw_pcolormesh`)

Coordinate arrays are 1D lists of possibly-masked rationals (a 2D
coordinate array enters the source's correction through its first
row/column only, so its 1D form is what the algorithm consumes); the
value array `z` is a list of rows.  The matplotlib axes state relevant
to the claims is the number of drawn meshes, the view limits, and the
colorbar (label and color limits).  The sentinel `none` in the first
component of the result models the Python return value `False`
("not drawn"). -/

/-- `np.all(getmask(arg))` for a 1D masked array: every entry masked. -/
def allMasked1 (l : List (Option ℚ)) : Bool :=
  l.all fun v => v.isNone

/-- `np.all(getmask(arg))` for the 2D value array. -/
def allMasked2 (z : List (List (Option ℚ))) : Bool :=
  z.all allMasked1

/-- The finite (unmasked) entries of an array. -/
def finiteVals (l : List (Option ℚ)) : List ℚ :=
  l.filterMap id

/-- `np.nanmin`: minimum over the finite entries, masked if there are none. -/
def nanmin (l : List (Option ℚ)) : Option ℚ :=
  match finiteVals l with
  | [] => none
  | a :: t => some (t.foldl min a)

/-- `np.nanmax`: maximum over the finite entries, masked if there are none. -/
def nanmax (l : List (Option ℚ)) : Option ℚ :=
  match finiteVals l with
  | [] => none
  | a :: t => some (t.foldl max a)

/-- `"{} ({})".format(label, unit)`. -/
def fmtLabel (l u : String) : String :=
  l ++ " (" ++ u ++ ")"

/-- The per-subplot colorbar (`ax.qcodes_colorbar`): its label and its
color limits (`set_clim`). -/
structure Colorbar where
  label : String
  clim : Option (Option ℚ × Option ℚ)
deriving DecidableEq, Inhabited

/-- The axes state touched by `_draw_pcolormesh`: number of mesh
artifacts, the x/y view limits, and the optional colorbar. -/
structure MeshAxState where
  meshes : ℕ
  xlim : Option (Option ℚ × Option ℚ)
  ylim : Option (Option ℚ × Option ℚ)
  colorbar : Option Colorbar
deriving DecidableEq, Inhabited

/-- Colorbar handling at the end of `_draw_pcolormesh`: reuse the
existing colorbar (label untouched) or create one labelled from the
explicit `zlabel`/`zunit` overrides, falling back to the label/unit
inferred from the data array; then `set_clim` to the finite range of
the current `z` data. -/
def cbarStep (st : MeshAxState) (z : List (List (Option ℚ)))
    (zlabelOv zunitOv : Option String) (zInf : String × String) : MeshAxState :=
  let cb : Colorbar :=
    match st.colorbar with
    | some cb => cb
    | none => { label := fmtLabel (zlabelOv.getD zInf.1) (zunitOv.getD zInf.2), clim := none }
  { st with colorbar := some { cb with clim := some (nanmin z.flatten, nanmax z.flatten) } }

/-- `np.any([np.all(getmask(arg)) for arg in args_masked])`: some
provided argument array is entirely masked. -/
def anyAllMasked (x y : Option (List (Option ℚ))) (z : List (List (Option ℚ))) : Bool :=
  (match x with | some l => allMasked1 l | none => false)
    || (match y with | some l => allMasked1 l | none => false)
    || allMasked2 z

/-- `MatPlot._draw_pcolormesh`.  Returns the drawn mesh handle (or
`none`, the Python `False`, when a provided coordinate or value array
is entirely masked) together with the updated axes state.  When both
`x` and `y` are provided they are grid-corner corrected and the view
limits are set to the corrected arrays' finite ranges. -/
def drawPcolormesh (st : MeshAxState) (x y : Option (List (Option ℚ)))
    (z : List (List (Option ℚ))) (zlabelOv zunitOv : Option String)
    (zInf : String × String) : Option ℕ × MeshAxState :=
  if anyAllMasked x y z then
    (none, st)
  else
    match x, y with
    | some xa, some ya =>
      let cx := gridCorrect xa
      let cy := gridCorrect ya
      let st1 : MeshAxState :=
        { st with meshes := st.meshes + 1,
                  xlim := some (nanmin cx, nanmax cx),
                  ylim := some (nanmin cy, nanmax cy) }
      let st2 := cbarStep st1 z zlabelOv zunitOv zInf
      (some st1.meshes, st2)
    | _, _ =>
      let st1 : MeshAxState := { st with meshes := st.meshes + 1 }
      let st2 := cbarStep st1 z zlabelOv zunitOv zInf
      (some st1.meshes, st2)

/-! ## Axis labels (`MatPlot._update_labels`) -/

/-- Python `str(obj)` for an optional string, `None` printing as "None". -/
def pyNone (o : Option String) : String :=
  o.getD "None"

/-- The two axis labels of a subplot; the empty string is matplotlib's
"no label yet" state (`get_xlabel()` is falsy). -/
structure AxLabels where
  xlabel : String
  ylabel : String
deriving DecidableEq, Inhabited

/-- The parts of a trace config consulted by `_update_labels`: whether
the `x`/`y` data keys are present, the label/unit pair `get_label`
infers from each data array, and the explicit
`xlabel`/`ylabel`/`xunit`/`yunit` overrides. -/
structure LabelConfig where
  hasX : Bool
  hasY : Bool
  xInf : String × String
  yInf : String × String
  xlabelOv : Option String
  ylabelOv : Option String
  xunitOv : Option String
  yunitOv : Option String
deriving DecidableEq, Inhabited

/-- One iteration of the `for axletter in ("x", "y")` loop of
`_update_labels`: `some newLabel` means the axis label is set to
`newLabel`; `none` means the loop hit the `return` (axis already
labelled) and the whole update aborts. -/
def axisLabelStep (cur : String) (present : Bool) (inf : String × String)
    (lov uov : Option String) : Option String :=
  if present = true ∧ cur = "" then
    some (fmtLabel (lov.getD inf.1) (uov.getD inf.2))
  else if cur ≠ "" then
    none
  else
    some (fmtLabel (pyNone lov) (pyNone uov))

/-- `MatPlot._update_labels`: process x then y; an already-labelled axis
aborts the whole update (the x label set in the first iteration, if
any, persists). -/
def updateLabels (st : AxLabels) (c : LabelConfig) : AxLabels :=
  match axisLabelStep st.xlabel c.hasX c.xInf c.xlabelOv c.xunitOv with
  | none => st
  | some nx =>
    match axisLabelStep st.ylabel c.hasY c.yInf c.ylabelOv c.yunitOv with
    | none => { st with xlabel := nx }
    | some ny => { xlabel := nx, ylabel := ny }

/-! ## Adding a trace (`MatPlot.add_to_plot`) -/

/-- One subplot: its axis labels, number of drawn line artifacts, mesh
axes state, and the tick-offset flag set by `ticklabel_format`. -/
structure SubplotAx where
  labels : AxLabels
  lines : ℕ
  mesh : MeshAxState
  useOffset : Bool
deriving DecidableEq, Inhabited

/-- The `MatPlot` state relevant to `add_to_plot`: the flat subplot
array and the number of registered traces.  (The window title update
uses `get_default_title` from the base class, outside these sources,
and is not modelled.) -/
structure MPState where
  axes : List SubplotAx
  ntraces : ℕ
deriving DecidableEq, Inhabited

/-- A call to `add_to_plot`: the 1-based `subplot` kwarg, the data
arrays, the label/unit overrides, the labels/units `get_label` would
infer from each data array, and the `use_offset` flag. -/
structure AddConfig where
  subplot : ℤ
  x : Option (List (Option ℚ))
  y : Option (List (Option ℚ))
  z : Option (List (List (Option ℚ)))
  xlabel : Option String
  ylabel : Option String
  zlabel : Option String
  xunit : Option String
  yunit : Option String
  zunit : Option String
  xInf : String × String
  yInf : String × String
  zInf : String × String
  useOffset : Bool
deriving DecidableEq, Inhabited

/-- The label-relevant projection of an `AddConfig` (`'x' in kwargs`
is presence of the x data array). -/
def labelCfgOf (c : AddConfig) : LabelConfig :=
  { hasX := c.x.isSome, hasY := c.y.isSome, xInf := c.xInf, yInf := c.yInf,
    xlabelOv := c.xlabel, ylabelOv := c.ylabel, xunitOv := c.xunit, yunitOv := c.yunit }

/-- Fallback subplot record (never reached: the index is in range
whenever it is read). -/
def subplotFallback : SubplotAx :=
  { labels := { xlabel := "", ylabel := "" }, lines := 0,
    mesh := { meshes := 0, xlim := none, ylim := none, colorbar := none },
    useOffset := false }

/-- `MatPlot.add_to_plot`.  The first statement indexes the flat numpy
subplot array with `subplot - 1`; numpy accepts `-n ≤ idx < n` (a
negative index wraps to `idx + n`) and raises `IndexError` otherwise,
modelled as `none` with no state change.  In range, the trace is drawn
(mesh if `z` is present, line otherwise), the tick-offset flag is set,
the labels are updated and the trace is registered. -/
def addToPlot (st : MPState) (c : AddConfig) : Option MPState :=
  let n : ℤ := st.axes.length
  let idx : ℤ := c.subplot - 1
  if -n ≤ idx ∧ idx < n then
    let k : ℕ := (if idx < 0 then idx + n else idx).toNat
    let ax := st.axes.getD k subplotFallback
    let ax1 :=
      match c.z with
      | some zz =>
        let pr := drawPcolormesh ax.mesh c.x c.y zz c.zlabel c.zunit c.zInf
        { ax with mesh := pr.2 }
      | none => { ax with lines := ax.lines + 1 }
    let ax2 := { ax1 with useOffset := c.useOffset }
    let ax3 := { ax2 with labels := updateLabels ax2.labels (labelCfgOf c) }
    some { st with axes := st.axes.set k ax3, ntraces := st.ntraces + 1 }
  else
    none

/-! ## Cross-section inspector (`ClickWidget`) -/

/-- `np.argmin` scan over the remaining list: `i` is the index of the
next element, `bi`/`bv` the best index and value so far (first minimum
wins, since only a strictly smaller value replaces the best). -/
def argminAbsAux (c : ℚ) : List ℚ → ℕ → ℕ → ℚ → ℕ
  | [], _, bi, _ => bi
  | v :: t, i, bi, bv =>
    if |v - c| < bv then argminAbsAux c t (i + 1) i |v - c|
    else argminAbsAux c t (i + 1) bi bv

/-- `(abs(axis - coord)).argmin()`: index of the first entry minimising
the absolute difference to `c`. -/
def argminAbs (c : ℚ) : List ℚ → ℕ
  | [] => 0
  | v :: t => argminAbsAux c t 1 0 |v - c|

/-- Specification predicate: `i` is an in-range index minimising
`|l[j] - c|`, and the first such index. -/
def isFirstMinIdx (c : ℚ) (l : List ℚ) (i : ℕ) : Prop :=
  i < l.length ∧ (∀ j, j < l.length → |l.getD i 0 - c| ≤ |l.getD j 0 - c|) ∧
    (∀ j, j < i → |l.getD i 0 - c| < |l.getD j 0 - c|)

/-- One auxiliary panel (`ax[1,0]` or `ax[0,1]`) or the heatmap panel:
labels, title and explicitly set view limits. -/
structure PanelAx where
  xlabel : String
  ylabel : String
  title : String
  xlim : Option (ℚ × ℚ)
  ylim : Option (ℚ × ℚ)
deriving DecidableEq, Inhabited

/-- `ax.clear()`: labels, title and explicit limits reset. -/
def panelClear : PanelAx :=
  { xlabel := "", ylabel := "", title := "", xlim := none, ylim := none }

/-- The `ClickWidget` state: the two checkboxes, the fixed dataset
(axis arrays, value grid, labels), the recorded click coordinates
(`config['xpos']`/`['ypos']`), the drawn auxiliary line artifacts
(as (xdata, ydata) pairs, in drawing order), the mplcursors data
cursor, the crosshair cursor's active flag, and the three panels. -/
structure CWState where
  crossChecked : Bool
  sumChecked : Bool
  xaxis : List ℚ
  yaxis : List ℚ
  zdata : List (List ℚ)
  xlabel : String
  ylabel : String
  zlabel : String
  xpos : Option ℚ
  ypos : Option ℚ
  lines : List (List ℚ × List ℚ)
  datacursor : Bool
  cursorActive : Bool
  heat : PanelAx
  axBL : PanelAx
  axTR : PanelAx
deriving DecidableEq, Inhabited

/-- `ClickWidget.remove_plots`: remove every auxiliary line artifact
and the data cursor, if present. -/
def removePlots (w : CWState) : CWState :=
  { w with lines := [], datacursor := false }

/-- Elementwise sum of two rows (numpy broadcasting over equal shapes). -/
def vecAdd (a b : List ℚ) : List ℚ :=
  List.zipWith (· + ·) a b

/-- `z.sum(axis=0)`: column sums. -/
def sumAxis0 (z : List (List ℚ)) : List ℚ :=
  match z with
  | [] => []
  | r :: rs => rs.foldl vecAdd r

/-- `z.sum(axis=1)`: row sums. -/
def sumAxis1 (z : List (List ℚ)) : List ℚ :=
  z.map fun r => r.foldl (· + ·) 0

/-- `.max()` of a 1D array (the source only applies it to nonempty
data; `0` on empty keeps the model total). -/
def maxD : List ℚ → ℚ
  | [] => 0
  | a :: t => t.foldl max a

/-- `ClickWidget.toggle_sum`: remove previous auxiliary artifacts; if
the cross-section checkbox is off, return; otherwise clear both
auxiliary panels and rebuild them in sum mode (full-axis sums, limits
from 1.05 × the maximum achievable sum) or in cross-section mode
(limits from 1.05 × the global maximum of the heatmap, lines drawn
only on a later click). -/
def toggleSum (w : CWState) : CWState :=
  let w1 := removePlots w
  if w1.crossChecked then
    if w1.sumChecked then
      { w1 with
        cursorActive := false,
        axBL := { panelClear with
                  ylim := some (0, maxD (sumAxis0 w1.zdata) * (21/20)),
                  xlabel := w1.xlabel,
                  ylabel := "sum of " ++ w1.zlabel,
                  title := "" },
        axTR := { panelClear with
                  xlim := some (0, maxD (sumAxis1 w1.zdata) * (21/20)),
                  xlabel := "sum of " ++ w1.zlabel,
                  ylabel := w1.ylabel,
                  title := "" },
        lines := [(sumAxis1 w1.zdata, w1.yaxis), (w1.xaxis, sumAxis0 w1.zdata)],
        datacursor := true }
    else
      { w1 with
        cursorActive := true,
        axBL := { panelClear with
                  xlabel := w1.xlabel,
                  ylabel := w1.zlabel,
                  ylim := some (0, maxD w1.zdata.flatten * (21/20)) },
        axTR := { panelClear with
                  xlabel := w1.zlabel,
                  ylabel := w1.ylabel,
                  xlim := some (0, maxD w1.zdata.flatten * (21/20)) } }
  else w1

/-- `"{} = {} ".format(lbl, v)` used for the cross-section titles. -/
def fmtEq (lbl : String) (v : ℚ) : String :=
  lbl ++ " = " ++ toString v ++ " "

/-- `ClickWidget._click`: ignored unless the click is inside the
heatmap panel and sum mode is off; otherwise locate the nearest grid
index on each axis independently by `argmin` of absolute differences,
remove the previous auxiliary artifacts, draw the two slices through
the clicked cell, annotate the panel titles, and record the clicked
axis values. -/
def clickStep (w : CWState) (inHeat : Bool) (cx cy : ℚ) : CWState :=
  if inHeat = true ∧ w.sumChecked = false then
    let xpos := argminAbs cx w.xaxis
    let ypos := argminAbs cy w.yaxis
    let w1 := removePlots w
    { w1 with
      lines := [(w1.zdata.map fun r => r.getD xpos 0, w1.yaxis),
                (w1.xaxis, w1.zdata.getD ypos [])],
      axTR := { w1.axTR with title := fmtEq w1.xlabel (w1.xaxis.getD xpos 0) },
      xpos := some (w1.xaxis.getD xpos 0),
      axBL := { w1.axBL with title := fmtEq w1.ylabel (w1.yaxis.getD ypos 0) },
      ypos := some (w1.yaxis.getD ypos 0),
      datacursor := true }
  else w

/-! ### Concrete example states used in instance checks -/

/-- A label config with every override supplied. -/
def exLabelCfg : LabelConfig :=
  { hasX := true, hasY := true, xInf := ("xi", "xu"), yInf := ("yi", "yu"),
    xlabelOv := some "XL", ylabelOv := some "YL",
    xunitOv := some "XU", yunitOv := some "YU" }

/-- A `MatPlot` with a 1×2 subplot grid and no traces. -/
def stTwo : MPState :=
  { axes := [subplotFallback, subplotFallback], ntraces := 0 }

/-- A line-trace add call with the out-of-grid subplot kwarg `0`. -/
def cWrap : AddConfig :=
  { subplot := 0, x := some [some 1, some 2], y := some [some 3, some 4], z := none,
    xlabel := none, ylabel := none, zlabel := none,
    xunit := none, yunit := none, zunit := none,
    xInf := ("x", "u"), yInf := ("y", "v"), zInf := ("z", "w"), useOffset := false }

/-- A line-trace add call with the out-of-grid subplot kwarg `5`. -/
def cHigh : AddConfig :=
  { cWrap with subplot := 5 }

/-- A cross-section inspector over axes `x = [0,2,4,6,8]`,
`y = [0,5,10]` with panels shown and sum mode off. -/
def exCW : CWState :=
  { crossChecked := true, sumChecked := false,
    xaxis := [0, 2, 4, 6, 8], yaxis := [0, 5, 10],
    zdata := [[1, 2, 3, 4, 5], [6, 7, 8, 9, 10], [11, 1, 2, 3, 4]],
    xlabel := "x", ylabel := "y", zlabel := "z",
    xpos := none, ypos := none, lines := [], datacursor := false,
    cursorActive := false, heat := panelClear, axBL := panelClear, axTR := panelClear }

/-- An empty mesh axes state (no meshes, no colorbar, default limits). -/
def exMeshSt : MeshAxState :=
  { meshes := 0, xlim := none, ylim := none, colorbar := none }

/-! ## Lemmas: uniformly spaced arrays through the grid correction -/

theorem uni_zero (a d : ℚ) : uni a d 0 = [] := rfl

theorem uni_succ (a d : ℚ) (n : ℕ) : uni a d (n + 1) = some a :: uni (a + d) d n := by
  unfold uni
  rw [List.range_succ_eq_map, List.map_cons, List.map_map]
  congr 1
  · norm_num
  · apply List.map_congr_left
    intro i _
    simp only [Function.comp_apply, Option.some.injEq]
    push_cast
    ring

theorem uni_concat (a d : ℚ) (n : ℕ) : uni a d (n + 1) = uni a d n ++ [some (a + n * d)] := by
  unfold uni
  rw [List.range_succ, List.map_append]
  rfl

theorem uni_length (a d : ℚ) (n : ℕ) : (uni a d n).length = n := by
  simp [uni]

theorem uni_get? (a d : ℚ) {n i : ℕ} (h : i < n) :
    (uni a d n).get? i = some (some (a + i * d)) := by
  unfold uni
  rw [List.get?_map, List.get?_range h]
  rfl

theorem uni_headD (a d : ℚ) (n : ℕ) (x : Option ℚ) : (uni a d (n + 1)).headD x = some a := by
  rw [uni_succ]
  rfl

theorem uni_getLastD (a d : ℚ) (n : ℕ) (x : Option ℚ) :
    (uni a d (n + 1)).getLastD x = some (a + n * d) := by
  rw [uni_concat]
  exact List.getLastD_concat _ _ _

theorem nthv_cons_succ (x : Option ℚ) (l : List (Option ℚ)) (i : ℕ) :
    nthv (x :: l) (i + 1) = nthv l i := rfl

theorem nthv_append_lt (l₁ l₂ : List (Option ℚ)) {i : ℕ} (h : i < l₁.length) :
    nthv (l₁ ++ l₂) i = nthv l₁ i := by
  unfold nthv
  rw [List.get?_append h]

theorem nthv_uni (a d : ℚ) {n i : ℕ} (h : i < n) :
    nthv (uni a d n) i = some (a + i * d) := by
  unfold nthv
  rw [uni_get? a d h]
  rfl

theorem updLast_concat (f : Option ℚ → Option ℚ) (l : List (Option ℚ)) (v : Option ℚ) :
    updLast f (l ++ [v]) = l ++ [f v] := by
  induction l with
  | nil => rfl
  | cons a t ih =>
    cases t with
    | nil => rfl
    | cons b t2 =>
      show a :: updLast f ((b :: t2) ++ [v]) = a :: ((b :: t2) ++ [f v])
      rw [ih]

theorem fix_uni (a d : ℚ) (m : ℕ) :
    extrapFixLast (extrapFixFirst (extrapPad (uni a d (m + 2)))) = uni (a - d) d (m + 4) := by
  have hpad : extrapPad (uni a d (m + 2))
      = some a :: (uni a d (m + 2) ++ [some (a + ((m : ℚ) + 1) * d)]) := by
    unfold extrapPad
    rw [uni_headD a d (m + 1), uni_getLastD a d (m + 1)]
    push_cast
    ring_nf
  have hfirst : extrapFixFirst (extrapPad (uni a d (m + 2)))
      = some (a - d) :: (uni a d (m + 2) ++ [some (a + ((m : ℚ) + 1) * d)]) := by
    rw [hpad]
    unfold extrapFixFirst updFirst
    have h1 : nthv (some a :: (uni a d (m + 2) ++ [some (a + ((m : ℚ) + 1) * d)])) 1
        = some (a + 0 * d) := by
      rw [nthv_cons_succ, nthv_append_lt _ _ (by rw [uni_length]; omega), nthv_uni a d (by omega)]
      norm_num
    have h2 : nthv (some a :: (uni a d (m + 2) ++ [some (a + ((m : ℚ) + 1) * d)])) 2
        = some (a + 1 * d) := by
      rw [nthv_cons_succ, nthv_append_lt _ _ (by rw [uni_length]; omega), nthv_uni a d (by omega)]
      norm_num
    rw [h1, h2]
    simp only [mSub, mAdd]
    have he : a + (a + 0 * d - (a + 1 * d)) = a - d := by ring
    rw [he]
  rw [hfirst]
  unfold extrapFixLast
  have hq : (some (a - d) :: (uni a d (m + 2) ++ [some (a + ((m : ℚ) + 1) * d)])).length
      = m + 4 := by
    simp [uni_length]
  have hb2 : nthBack (some (a - d) :: (uni a d (m + 2) ++ [some (a + ((m : ℚ) + 1) * d)])) 2
      = some (a + ((m : ℚ) + 1) * d) := by
    unfold nthBack
    rw [hq]
    rw [show m + 4 - 2 = (m + 1) + 1 from by omega]
    rw [nthv_cons_succ, nthv_append_lt _ _ (by rw [uni_length]; omega),
      nthv_uni a d (by omega)]
    push_cast
    ring_nf
  have hb3 : nthBack (some (a - d) :: (uni a d (m + 2) ++ [some (a + ((m : ℚ) + 1) * d)])) 3
      = some (a + (m : ℚ) * d) := by
    unfold nthBack
    rw [hq]
    rw [show m + 4 - 3 = m + 1 from by omega]
    rw [nthv_cons_succ, nthv_append_lt _ _ (by rw [uni_length]; omega),
      nthv_uni a d (by omega)]
  rw [hb2, hb3]
  rw [show some (a - d) :: (uni a d (m + 2) ++ [some (a + ((m : ℚ) + 1) * d)])
      = (some (a - d) :: uni a d (m + 2)) ++ [some (a + ((m : ℚ) + 1) * d)] from rfl]
  rw [updLast_concat]
  simp only [mSub, mAdd, Option.some.injEq]
  have hv : a + ((m : ℚ) + 1) * d + (a + ((m : ℚ) + 1) * d - (a + (m : ℚ) * d))
      = a + ((m : ℚ) + 2) * d := by ring
  rw [hv]
  have hcat : uni a d (m + 2) ++ [some (a + ((m : ℚ) + 2) * d)] = uni a d (m + 3) := by
    rw [uni_concat a d (m + 2)]
    push_cast
    ring_nf
  rw [List.cons_append, ← List.cons_append]
  rw [show (some (a - d) :: uni a d (m + 2)) ++ [some (a + ((m : ℚ) + 2) * d)]
      = some (a - d) :: (uni a d (m + 2) ++ [some (a + ((m : ℚ) + 2) * d)]) from rfl]
  rw [hcat]
  rw [uni_succ (a - d) d (m + 3)]
  have : a - d + d = a := by ring
  rw [this]

theorem halfDiffs_cons₂ (x y : Option ℚ) (t : List (Option ℚ)) :
    halfDiffs (x :: y :: t) = mHalf (mSub y x) :: halfDiffs (y :: t) := rfl

theorem halfDiffs_uni (c d : ℚ) (k : ℕ) :
    halfDiffs (uni c d (k + 1)) = List.replicate k (some (d / 2)) := by
  induction k generalizing c with
  | zero =>
    rw [uni_succ, uni_zero]
    rfl
  | succ k ih =>
    rw [uni_succ c d (k + 1), uni_succ (c + d) d k, halfDiffs_cons₂, ← uni_succ (c + d) d k,
      ih (c + d), List.replicate_succ]
    congr 1
    show mHalf (mSub (some (c + d)) (some c)) = some (d / 2)
    simp only [mSub, mHalf, Option.some.injEq]
    ring

theorem withLead_replicate (k : ℕ) (v : Option ℚ) :
    withLead (List.replicate (k + 1) v) = List.replicate (k + 2) v := by
  simp [withLead, List.replicate_succ]

theorem zip_mAdd_uni_replicate (c d e : ℚ) (k : ℕ) :
    List.zipWith mAdd (uni c d k) (List.replicate k (some e)) = uni (c + e) d k := by
  induction k generalizing c with
  | zero => rfl
  | succ k ih =>
    rw [uni_succ c d k, List.replicate_succ, List.zipWith_cons_cons, ih (c + d),
      uni_succ (c + e) d k]
    have hcc : c + d + e = c + e + d := by ring
    rw [hcc]
    rfl

theorem uni_dropLast (c d : ℚ) (k : ℕ) : (uni c d (k + 1)).dropLast = uni c d k := by
  rw [uni_concat]
  exact List.dropLast_concat

/-- The grid correction maps a uniform array of `n ≥ 2` samples with step
`d` starting at `a` to the uniform array of `n + 1` boundaries with the
same step, starting half a step below the first sample. -/
theorem gridCorrect_uni (a d : ℚ) (m : ℕ) :
    gridCorrect (uni a d (m + 2)) = uni (a - d / 2) d (m + 3) := by
  have hcond : ¬(2 ≤ (uni a d (m + 2)).length ∧ nthv (uni a d (m + 2)) 1 = none) := by
    rintro ⟨-, h⟩
    rw [nthv_uni a d (by omega : 1 < m + 2)] at h
    exact Option.some_ne_none _ h
  unfold gridCorrect
  rw [if_neg hcond]
  unfold gridCorrectMain
  rw [fix_uni, halfDiffs_uni (a - d) d (m + 3), withLead_replicate (m + 2) (some (d / 2)),
    show m + 2 + 2 = m + 4 from by omega,
    zip_mAdd_uni_replicate (a - d) d (d / 2) (m + 4), uni_dropLast]
  have : a - d + d / 2 = a - d / 2 := by ring
  rw [this]

theorem updFirst_length (f : Option ℚ → Option ℚ) (l : List (Option ℚ)) :
    (updFirst f l).length = l.length := by
  cases l <;> rfl

theorem updLast_length (f : Option ℚ → Option ℚ) (l : List (Option ℚ)) :
    (updLast f l).length = l.length := by
  induction l with
  | nil => rfl
  | cons a t ih =>
    cases t with
    | nil => rfl
    | cons b t2 =>
      show (a :: updLast f (b :: t2)).length = (a :: b :: t2).length
      simp only [List.length_cons]
      rw [ih]
      rfl

theorem gridCorrectMain_length (arr : List (Option ℚ)) :
    (gridCorrectMain arr).length = arr.length + 1 := by
  unfold gridCorrectMain
  have hplen : (extrapFixLast (extrapFixFirst (extrapPad arr))).length = arr.length + 2 := by
    unfold extrapFixLast extrapFixFirst extrapPad
    rw [updLast_length, updFirst_length]
    simp
  have hd : (halfDiffs (extrapFixLast (extrapFixFirst (extrapPad arr)))).length
      = arr.length + 1 := by
    unfold halfDiffs
    rw [List.length_zipWith, List.length_tail, hplen]
    omega
  rw [List.length_dropLast, List.length_zipWith]
  unfold withLead
  rw [List.length_cons, hd, hplen]
  omega

theorem gridCorrect_length (arr : List (Option ℚ)) :
    (gridCorrect arr).length = arr.length + 1 := by
  unfold gridCorrect
  split
  · rename_i h
    cases arr with
    | nil => simp at h
    | cons v rest => simp
  · exact gridCorrectMain_length arr

/-! ## Claim C1 -/

/-- C1 (counterexample): for the axis array `[0, 10, 11]` (three finite
samples), the corrected boundaries are `[-5, 5, 15, 23/2]`, and the
original sample `11` (index 2) does not lie strictly between its two
corresponding output boundaries `15` and `23/2` — refuting the claim
that every original sample lies strictly between its two consecutive
output boundary values. -/
theorem C1_betweenness_counterexample :
    nthv [some 0, some 10, some 11] 2 = some 11 ∧
    nthv (gridCorrect [some 0, some 10, some 11]) 2 = some 15 ∧
    nthv (gridCorrect [some 0, some 10, some 11]) 3 = some (23 / 2) ∧
    ¬ strictlyBetween 11 15 (23 / 2) := by
  have hg : gridCorrect [some 0, some 10, some 11]
      = [some (-5), some 5, some 15, some (23 / 2)] := by
    norm_num [gridCorrect, gridCorrectMain, extrapPad, extrapFixFirst, extrapFixLast,
      halfDiffs, withLead, updFirst, updLast, nthv, nthBack, mAdd, mSub, mHalf,
      Option.some_ne_none]
  refine ⟨rfl, ?_, ?_, ?_⟩
  · rw [hg]
    rfl
  · rw [hg]
    rfl
  · norm_num [strictlyBetween]

/-- C1 (amended): for every axis array of length at least 2 the
grid-corner correction returns an array exactly one element longer;
and for a uniformly spaced axis array with positive step every
original sample lies strictly between its two corresponding output
boundaries (the betweenness part can fail for irregular spacing, as
the counterexample shows). -/
theorem C1_length_and_uniform_betweenness :
    (∀ arr : List (Option ℚ), 2 ≤ arr.length → (gridCorrect arr).length = arr.length + 1) ∧
    (∀ (a d : ℚ) (n i : ℕ), 2 ≤ n → 0 < d → i < n →
      nthv (uni a d n) i = some (a + (i : ℚ) * d) ∧
      nthv (gridCorrect (uni a d n)) i = some (a - d / 2 + (i : ℚ) * d) ∧
      nthv (gridCorrect (uni a d n)) (i + 1) = some (a - d / 2 + ((i : ℚ) + 1) * d) ∧
      strictlyBetween (a + (i : ℚ) * d) (a - d / 2 + (i : ℚ) * d)
        (a - d / 2 + ((i : ℚ) + 1) * d)) := by
  constructor
  · intro arr _
    exact gridCorrect_length arr
  · intro a d n i hn hd hi
    obtain ⟨m, rfl⟩ : ∃ m, n = m + 2 := ⟨n - 2, by omega⟩
    rw [gridCorrect_uni]
    refine ⟨nthv_uni a d hi, ?_, ?_, ?_⟩
    · rw [nthv_uni _ _ (by omega : i < m + 3)]
    · rw [nthv_uni _ _ (by omega : i + 1 < m + 3)]
      push_cast
      ring_nf
    · left
      constructor
      · linarith
      · linarith

/-- Witness for C1 (amended) at the concrete array `[0, 10, 11]` and at
the uniform array starting at 0 with step 2, sample index 0. -/
theorem C1_length_and_uniform_betweenness_witness :
    (gridCorrect [some 0, some 10, some 11]).length = 4 ∧ strictlyBetween 0 (-1) 1 := by
  constructor
  · have h := C1_length_and_uniform_betweenness.1 [some 0, some 10, some 11] (by norm_num)
    simpa using h
  · have h := (C1_length_and_uniform_betweenness.2 0 2 2 0 (by norm_num) (by norm_num)
      (by norm_num)).2.2.2
    norm_num at h
    exact h

/-! ## Claim C7 -/

/-- C7: for a uniformly spaced axis array of `n ≥ 2` samples with
constant step `d`, the consecutive differences of the corrected
boundary array are all exactly `d`. -/
theorem C7_uniform_spacing_preserved (a d : ℚ) (n : ℕ) (hn : 2 ≤ n) (i : ℕ)
    (hi : i + 1 < n + 1) :
    mSub (nthv (gridCorrect (uni a d n)) (i + 1)) (nthv (gridCorrect (uni a d n)) i)
      = some d := by
  obtain ⟨m, rfl⟩ : ∃ m, n = m + 2 := ⟨n - 2, by omega⟩
  rw [gridCorrect_uni]
  rw [nthv_uni _ _ (by omega : i + 1 < m + 3), nthv_uni _ _ (by omega : i < m + 3)]
  simp only [mSub, Option.some.injEq]
  push_cast
  ring

/-- Witness for C7 at the uniform array `0, 2, 4` (step 2), boundary
indices 1 and 2. -/
theorem C7_uniform_spacing_preserved_witness :
    mSub (nthv (gridCorrect (uni 0 2 3)) 2) (nthv (gridCorrect (uni 0 2 3)) 1) = some 2 :=
  C7_uniform_spacing_preserved 0 2 3 (by norm_num) 1 (by norm_num)

/-! ## Claim C2 -/

/-- C2: constructing with an integer subplot count computes the shape
(ceil(count / max_subplot_columns) rows, min(count, max_subplot_columns)
columns); in particular a count of 4 with the column cap 3 yields
(2, 3), not (2, 2). -/
theorem C2_subplot_shape_from_count :
    (∀ n : ℕ, initShape n = specShape n) ∧ initShape 4 = (2, 3) ∧ initShape 4 ≠ (2, 2) := by
  have key : ∀ n : ℕ, initShape n = specShape n := by
    intro n
    unfold initShape specShape maxSubplotColumns
    set k : ℕ := (n + 3 - 1) / 3 with hkdef
    have hk1 : 3 * k ≤ n + 2 := by omega
    have hk2 : n ≤ 3 * k := by omega
    have hcast : ((3 : ℕ) : ℚ) = 3 := by norm_num
    rw [hcast]
    have hceil : ⌈(n : ℚ) / 3⌉ = (k : ℤ) := by
      rw [Int.ceil_eq_iff]
      constructor
      · rw [lt_div_iff (by norm_num : (0 : ℚ) < 3)]
        push_cast
        have h1 : (3 : ℚ) * k ≤ (n : ℚ) + 2 := by exact_mod_cast hk1
        linarith
      · rw [div_le_iff (by norm_num : (0 : ℚ) < 3)]
        push_cast
        have h2 : (n : ℚ) ≤ 3 * k := by exact_mod_cast hk2
        linarith
    rw [hceil]
    simp
  refine ⟨key, ?_, ?_⟩
  · rw [key 4]
    decide
  · rw [key 4]
    decide

/-! ## Claim C3 -/

/-- Shared helper: the early-return condition of `_draw_pcolormesh` is
true when a provided coordinate array, or the value array, is entirely
masked. -/
theorem drawPcolormesh_all_masked (st : MeshAxState) (x y : Option (List (Option ℚ)))
    (z : List (List (Option ℚ))) (zl zu : Option String) (zi : String × String)
    (h : (∃ l, x = some l ∧ ∀ v ∈ l, v = (none : Option ℚ)) ∨
         (∃ l, y = some l ∧ ∀ v ∈ l, v = (none : Option ℚ)) ∨
         (∀ r ∈ z, ∀ v ∈ r, v = (none : Option ℚ))) :
    drawPcolormesh st x y z zl zu zi = (none, st) := by
  have hcond : anyAllMasked x y z = true := by
    rcases h with ⟨l, rfl, hl⟩ | ⟨l, rfl, hl⟩ | hz
    · have hm : allMasked1 l = true := by
        simp only [allMasked1, List.all_eq_true]
        intro v hv
        rw [hl v hv]
        rfl
      simp [anyAllMasked, hm]
    · have hm : allMasked1 l = true := by
        simp only [allMasked1, List.all_eq_true]
        intro v hv
        rw [hl v hv]
        rfl
      simp [anyAllMasked, hm]
    · have hm : allMasked2 z = true := by
        simp only [allMasked2, List.all_eq_true]
        intro r hr
        simp only [allMasked1, List.all_eq_true]
        intro v hv
        rw [hz r hr v hv]
        rfl
      simp [anyAllMasked, hm]
  unfold drawPcolormesh
  rw [if_pos hcond]

/-- C3: a mesh trace in which some provided coordinate array or the
value array is entirely masked is not drawn: `_draw_pcolormesh` returns
the sentinel (`False`, modelled `none`) without raising, leaves the
axes state untouched, and in particular creates no colorbar. -/
theorem C3_all_masked_not_drawn (st : MeshAxState) (x y : Option (List (Option ℚ)))
    (z : List (List (Option ℚ))) (zl zu : Option String) (zi : String × String)
    (h : (∃ l, x = some l ∧ ∀ v ∈ l, v = (none : Option ℚ)) ∨
         (∃ l, y = some l ∧ ∀ v ∈ l, v = (none : Option ℚ)) ∨
         (∀ r ∈ z, ∀ v ∈ r, v = (none : Option ℚ))) :
    drawPcolormesh st x y z zl zu zi = (none, st) ∧
    (drawPcolormesh st x y z zl zu zi).2.colorbar = st.colorbar ∧
    (drawPcolormesh st x y z zl zu zi).2.meshes = st.meshes := by
  have h1 := drawPcolormesh_all_masked st x y z zl zu zi h
  exact ⟨h1, by rw [h1], by rw [h1]⟩

/-- Witness for C3: an entirely masked x array over a one-cell grid. -/
theorem C3_all_masked_not_drawn_witness :
    drawPcolormesh exMeshSt (some [none, none]) (some [some 1, some 2]) [[some 1]]
      none none ("z", "V") = (none, exMeshSt) :=
  (C3_all_masked_not_drawn exMeshSt (some [none, none]) (some [some 1, some 2]) [[some 1]]
    none none ("z", "V") (Or.inl ⟨[none, none], rfl, by simp⟩)).1

/-! ## Claims C4 and C9 -/

/-- Shared helper: if the x axis already has a label, `_update_labels`
hits the `return` in its first loop iteration and changes nothing. -/
theorem updateLabels_xlabeled (st : AxLabels) (c : LabelConfig) (hx : st.xlabel ≠ "") :
    updateLabels st c = st := by
  have hstep : axisLabelStep st.xlabel c.hasX c.xInf c.xlabelOv c.xunitOv = none := by
    unfold axisLabelStep
    rw [if_neg (by rintro ⟨-, h⟩; exact hx h), if_pos hx]
  unfold updateLabels
  rw [hstep]

/-- C4: an already-set axis label is never overwritten by a later
trace add, and on a first add to a fully unlabelled subplot the
explicit caller-supplied label/unit overrides win over the labels
inferred from the data arrays. -/
theorem C4_no_overwrite_and_override_priority :
    (∀ (st : AxLabels) (c : LabelConfig), st.xlabel ≠ "" →
        (updateLabels st c).xlabel = st.xlabel) ∧
    (∀ (st : AxLabels) (c : LabelConfig), st.ylabel ≠ "" →
        (updateLabels st c).ylabel = st.ylabel) ∧
    (∀ (st : AxLabels) (c : LabelConfig) (lx ux ly uy : String),
        st.xlabel = "" → st.ylabel = "" → c.hasX = true → c.hasY = true →
        c.xlabelOv = some lx → c.xunitOv = some ux →
        c.ylabelOv = some ly → c.yunitOv = some uy →
        (updateLabels st c).xlabel = fmtLabel lx ux ∧
        (updateLabels st c).ylabel = fmtLabel ly uy) := by
  refine ⟨?_, ?_, ?_⟩
  · intro st c hx
    rw [updateLabels_xlabeled st c hx]
  · intro st c hy
    unfold updateLabels
    cases hxs : axisLabelStep st.xlabel c.hasX c.xInf c.xlabelOv c.xunitOv with
    | none => rfl
    | some nx =>
      have hys : axisLabelStep st.ylabel c.hasY c.yInf c.ylabelOv c.yunitOv = none := by
        unfold axisLabelStep
        rw [if_neg (by rintro ⟨-, h⟩; exact hy h), if_pos hy]
      rw [hys]
  · intro st c lx ux ly uy hx0 hy0 hhx hhy hlx hux hly huy
    unfold updateLabels
    have hxs : axisLabelStep st.xlabel c.hasX c.xInf c.xlabelOv c.xunitOv
        = some (fmtLabel lx ux) := by
      unfold axisLabelStep
      rw [if_pos ⟨hhx, hx0⟩, hlx, hux]
      rfl
    have hys : axisLabelStep st.ylabel c.hasY c.yInf c.ylabelOv c.yunitOv
        = some (fmtLabel ly uy) := by
      unfold axisLabelStep
      rw [if_pos ⟨hhy, hy0⟩, hly, huy]
      rfl
    rw [hxs, hys]
    exact ⟨rfl, rfl⟩

/-- Witness for C4: a labelled x axis survives a second add; on a fresh
subplot the explicit overrides "XL"/"XU" and "YL"/"YU" beat the
inferred "xi"/"xu" and "yi"/"yu". -/
theorem C4_no_overwrite_and_override_priority_witness :
    (updateLabels { xlabel := "V (mV)", ylabel := "" } exLabelCfg).xlabel = "V (mV)" ∧
    (updateLabels { xlabel := "", ylabel := "I (A)" } exLabelCfg).ylabel = "I (A)" ∧
    (updateLabels { xlabel := "", ylabel := "" } exLabelCfg).xlabel = fmtLabel "XL" "XU" ∧
    (updateLabels { xlabel := "", ylabel := "" } exLabelCfg).ylabel = fmtLabel "YL" "YU" := by
  refine ⟨?_, ?_, ?_, ?_⟩
  · exact C4_no_overwrite_and_override_priority.1
      { xlabel := "V (mV)", ylabel := "" } exLabelCfg (by decide)
  · exact C4_no_overwrite_and_override_priority.2.1
      { xlabel := "", ylabel := "I (A)" } exLabelCfg (by decide)
  · exact (C4_no_overwrite_and_override_priority.2.2
      { xlabel := "", ylabel := "" } exLabelCfg "XL" "XU" "YL" "YU"
      rfl rfl rfl rfl rfl rfl rfl rfl).1
  · exact (C4_no_overwrite_and_override_priority.2.2
      { xlabel := "", ylabel := "" } exLabelCfg "XL" "XU" "YL" "YU"
      rfl rfl rfl rfl rfl rfl rfl rfl).2

/-- C9: `_update_labels` processes x before y, and an already-labelled
x axis aborts the whole step: the state is returned unchanged, so the
y label is never set by that add, even when the y axis is unlabelled
and the config supplies a y label. -/
theorem C9_x_label_aborts_whole_update (st : AxLabels) (c : LabelConfig)
    (hx : st.xlabel ≠ "") :
    updateLabels st c = st :=
  updateLabels_xlabeled st c hx

/-- Witness for C9: with x already labelled and y empty, an add whose
config supplies a y label override leaves the y axis unlabelled. -/
theorem C9_x_label_aborts_whole_update_witness :
    updateLabels { xlabel := "V (mV)", ylabel := "" } exLabelCfg
      = { xlabel := "V (mV)", ylabel := "" } :=
  C9_x_label_aborts_whole_update { xlabel := "V (mV)", ylabel := "" } exLabelCfg (by decide)

/-! ## Claim C8 -/

/-- C8 (counterexample): on a 1×2 grid, the out-of-grid 1-based subplot
kwarg `0` is not rejected: numpy's negative indexing wraps `0 - 1 = -1`
to the last subplot, the call succeeds, a trace is registered, and a
line artifact is drawn into the existing subplot at index 1 — refuting
the claim that every out-of-grid subplot index fails fast with no
drawing side effect. -/
theorem C8_wraparound_counterexample :
    (cWrap.subplot < 1 ∨ (stTwo.axes.length : ℤ) < cWrap.subplot) ∧
    addToPlot stTwo cWrap ≠ none ∧
    (addToPlot stTwo cWrap).elim 0 (fun s => s.ntraces) = 1 ∧
    (addToPlot stTwo cWrap).elim 0 (fun s => (s.axes.getD 1 subplotFallback).lines) = 1 := by
  refine ⟨by decide, ?_, ?_, ?_⟩ <;> decide

/-- C8 (amended): a subplot kwarg whose 0-based index falls outside
numpy's accepted range `-n ≤ idx < n` (that is, `subplot > n` or
`subplot ≤ -n`, for `n` subplots) raises before anything is drawn,
registered or labelled — modelled by an `IndexError` result `none`
produced by the very first statement, with no successor state; but
out-of-grid values in `1 - n ≤ subplot ≤ 0` are not rejected and wrap
to an existing subplot. -/
theorem C8_out_of_numpy_range_rejected (st : MPState) (c : AddConfig)
    (h : c.subplot - 1 < -(st.axes.length : ℤ) ∨ (st.axes.length : ℤ) ≤ c.subplot - 1) :
    addToPlot st c = none := by
  have hneg : ¬(-(st.axes.length : ℤ) ≤ c.subplot - 1 ∧
      c.subplot - 1 < (st.axes.length : ℤ)) := by
    rintro ⟨h1, h2⟩
    rcases h with h | h <;> omega
  simp only [addToPlot]
  rw [if_neg hneg]

/-- Witness for C8 (amended): subplot kwarg 5 on a 1×2 grid raises. -/
theorem C8_out_of_numpy_range_rejected_witness :
    addToPlot stTwo cHigh = none :=
  C8_out_of_numpy_range_rejected stTwo cHigh (Or.inr (by decide))

/-! ## Claim C5 -/

/-- Shared helper: the `argmin` scan, started after a processed prefix
with a valid running best, lands on the first minimising index of the
whole array. -/
theorem argminAbsAux_spec (c : ℚ) (t : List ℚ) :
    ∀ (pre : List ℚ) (bi : ℕ) (bv : ℚ), bi < pre.length →
      bv = |pre.getD bi 0 - c| →
      (∀ j, j < pre.length → bv ≤ |pre.getD j 0 - c|) →
      (∀ j, j < bi → bv < |pre.getD j 0 - c|) →
      isFirstMinIdx c (pre ++ t) (argminAbsAux c t pre.length bi bv) := by
  induction t with
  | nil =>
    intro pre bi bv hbi hbv hmin hfirst
    simp only [argminAbsAux, List.append_nil]
    exact ⟨hbi, fun j hj => hbv ▸ hmin j hj, fun j hj => hbv ▸ hfirst j hj⟩
  | cons v t ih =>
    intro pre bi bv hbi hbv hmin hfirst
    have hsplit : pre ++ v :: t = (pre ++ [v]) ++ t := by
      rw [List.append_assoc]
      rfl
    have hlen : (pre ++ [v]).length = pre.length + 1 := by
      simp
    have hgv : (pre ++ [v]).getD pre.length 0 = v := by
      rw [List.getD_append_right _ _ _ _ le_rfl]
      simp
    rw [hsplit]
    show isFirstMinIdx c ((pre ++ [v]) ++ t)
      (if |v - c| < bv then argminAbsAux c t (pre.length + 1) pre.length |v - c|
       else argminAbsAux c t (pre.length + 1) bi bv)
    by_cases hvc : |v - c| < bv
    · rw [if_pos hvc, show pre.length + 1 = (pre ++ [v]).length from hlen.symm]
      apply ih (pre ++ [v]) pre.length |v - c|
      · omega
      · rw [hgv]
      · intro j hj
        rw [hlen] at hj
        rcases Nat.lt_or_ge j pre.length with hj2 | hj2
        · rw [List.getD_append _ _ _ _ hj2]
          exact le_of_lt (lt_of_lt_of_le hvc (hmin j hj2))
        · have hje : j = pre.length := by omega
          rw [hje, hgv]
      · intro j hj
        rw [List.getD_append _ _ _ _ hj]
        exact lt_of_lt_of_le hvc (hmin j hj)
    · rw [if_neg hvc, show pre.length + 1 = (pre ++ [v]).length from hlen.symm]
      apply ih (pre ++ [v]) bi bv
      · rw [hlen]
        omega
      · rw [List.getD_append _ _ _ _ hbi]
        exact hbv
      · intro j hj
        rw [hlen] at hj
        rcases Nat.lt_or_ge j pre.length with hj2 | hj2
        · rw [List.getD_append _ _ _ _ hj2]
          exact hmin j hj2
        · have hje : j = pre.length := by omega
          rw [hje, hgv]
          exact le_of_not_lt hvc
      · intro j hj
        rw [List.getD_append _ _ _ _ (lt_of_lt_of_le hj (le_of_lt hbi))]
        exact hfirst j hj

/-- Shared helper: on a nonempty axis array, `argmin` of absolute
differences returns the first index minimising the distance to `c`. -/
theorem argminAbs_isFirstMinIdx (c : ℚ) (l : List ℚ) (hl : l ≠ []) :
    isFirstMinIdx c l (argminAbs c l) := by
  cases l with
  | nil => exact absurd rfl hl
  | cons v t =>
    have h := argminAbsAux_spec c t [v] 0 |v - c| (by simp) (by simp)
      (by
        intro j hj
        have hj0 : j = 0 := by
          simp at hj
          omega
        rw [hj0]
        simp)
      (by
        intro j hj
        exact absurd hj (Nat.not_lt_zero j))
    exact h

/-- C5: a click in the heatmap panel with sum mode off selects, on each
axis independently, the index minimising the absolute difference to the
clicked coordinate (first index on ties), and records the corresponding
axis values as the new cross-section position. -/
theorem C5_click_selects_first_nearest_index (w : CWState) (cx cy : ℚ)
    (hx : w.xaxis ≠ []) (hy : w.yaxis ≠ []) (hs : w.sumChecked = false) :
    isFirstMinIdx cx w.xaxis (argminAbs cx w.xaxis) ∧
    isFirstMinIdx cy w.yaxis (argminAbs cy w.yaxis) ∧
    (clickStep w true cx cy).xpos = some (w.xaxis.getD (argminAbs cx w.xaxis) 0) ∧
    (clickStep w true cx cy).ypos = some (w.yaxis.getD (argminAbs cy w.yaxis) 0) := by
  refine ⟨argminAbs_isFirstMinIdx cx w.xaxis hx, argminAbs_isFirstMinIdx cy w.yaxis hy, ?_, ?_⟩
  · simp [clickStep, removePlots, hs]
  · simp [clickStep, removePlots, hs]

/-- Witness for C5: clicking at data coordinates (3, 7) over axes
`x = [0,2,4,6,8]`, `y = [0,5,10]` locates indices (1, 1), recording
axis values x = 2 and y = 5. -/
theorem C5_click_selects_first_nearest_index_witness :
    argminAbs 3 [0, 2, 4, 6, 8] = 1 ∧ argminAbs 7 [0, 5, 10] = 1 ∧
    isFirstMinIdx 3 [0, 2, 4, 6, 8] 1 ∧ isFirstMinIdx 7 [0, 5, 10] 1 ∧
    (clickStep exCW true 3 7).xpos = some 2 ∧ (clickStep exCW true 3 7).ypos = some 5 := by
  have e1 : argminAbs 3 [0, 2, 4, 6, 8] = 1 := by
    norm_num [argminAbs, argminAbsAux]
  have e2 : argminAbs 7 [0, 5, 10] = 1 := by
    norm_num [argminAbs, argminAbsAux]
  have hxax : exCW.xaxis = [0, 2, 4, 6, 8] := rfl
  have hyax : exCW.yaxis = [0, 5, 10] := rfl
  have h := C5_click_selects_first_nearest_index exCW 3 7
    (by rw [hxax]; simp) (by rw [hyax]; simp) rfl
  rw [hxax, hyax, e1, e2] at h
  refine ⟨e1, e2, h.1, h.2.1, ?_, ?_⟩
  · rw [h.2.2.1]
    rfl
  · rw [h.2.2.2]
    rfl

/-! ## Claim C6 -/

/-- C6: with the auxiliary panels shown, entering sum mode sets the
bottom-left panel's y limits to [0, 1.05 × max column sum] and the
top-right panel's x limits to [0, 1.05 × max row sum]; entering
cross-section (pointer) mode instead sets both to [0, 1.05 × the
global maximum of the whole heatmap] — a quantity independent of any
clicked position, not the maximum of the displayed slice. -/
theorem C6_toggle_sum_limits (w : CWState) (hc : w.crossChecked = true) :
    (w.sumChecked = true →
      (toggleSum w).axBL.ylim = some (0, maxD (sumAxis0 w.zdata) * (21 / 20)) ∧
      (toggleSum w).axTR.xlim = some (0, maxD (sumAxis1 w.zdata) * (21 / 20))) ∧
    (w.sumChecked = false →
      (toggleSum w).axBL.ylim = some (0, maxD w.zdata.flatten * (21 / 20)) ∧
      (toggleSum w).axTR.xlim = some (0, maxD w.zdata.flatten * (21 / 20))) := by
  constructor
  · intro hs
    constructor <;> simp [toggleSum, removePlots, hc, hs]
  · intro hs
    constructor <;> simp [toggleSum, removePlots, hc, hs]

/-- Witness for C6 at the concrete inspector state: both modes, with
the sums and the global maximum evaluated. -/
theorem C6_toggle_sum_limits_witness :
    (toggleSum { exCW with sumChecked := true }).axBL.ylim = some (0, 19 * (21 / 20)) ∧
    (toggleSum { exCW with sumChecked := true }).axTR.xlim = some (0, 40 * (21 / 20)) ∧
    (toggleSum exCW).axBL.ylim = some (0, 11 * (21 / 20)) ∧
    (toggleSum exCW).axTR.xlim = some (0, 11 * (21 / 20)) := by
  have hsum := (C6_toggle_sum_limits { exCW with sumChecked := true } rfl).1 rfl
  have hcross := (C6_toggle_sum_limits exCW rfl).2 rfl
  have h0 : maxD (sumAxis0 exCW.zdata) = 19 := by
    norm_num [exCW, sumAxis0, vecAdd, maxD]
  have h1 : maxD (sumAxis1 exCW.zdata) = 40 := by
    norm_num [exCW, sumAxis1, maxD]
  have h2 : maxD exCW.zdata.flatten = 11 := by
    norm_num [exCW, maxD]
  refine ⟨?_, ?_, ?_, ?_⟩
  · rw [hsum.1]
    rw [show ({ exCW with sumChecked := true } : CWState).zdata = exCW.zdata from rfl, h0]
  · rw [hsum.2]
    rw [show ({ exCW with sumChecked := true } : CWState).zdata = exCW.zdata from rfl, h1]
  · rw [hcross.1, h2]
  · rw [hcross.2, h2]

/-! ## Claim C10 -/

/-- C10: toggling the sum control while the auxiliary panels are hidden
only removes the previously drawn auxiliary line artifacts (and their
data cursor) and returns: the heatmap panel, both auxiliary panels with
their limits and labels, the dataset and every other field are
unchanged, and no new artifacts are drawn. -/
theorem C10_toggle_sum_hidden_removes_only (w : CWState) (hc : w.crossChecked = false) :
    toggleSum w = { w with lines := [], datacursor := false } ∧
    (toggleSum w).heat = w.heat ∧
    (toggleSum w).axBL = w.axBL ∧
    (toggleSum w).axTR = w.axTR ∧
    (toggleSum w).lines = [] := by
  have h1 : toggleSum w = { w with lines := [], datacursor := false } := by
    simp [toggleSum, removePlots, hc]
  refine ⟨h1, ?_, ?_, ?_, ?_⟩ <;> rw [h1]

/-- Witness for C10: the concrete inspector with panels hidden. -/
theorem C10_toggle_sum_hidden_removes_only_witness :
    toggleSum { exCW with crossChecked := false }
      = { exCW with crossChecked := false, lines := [], datacursor := false } :=
  (C10_toggle_sum_hidden_removes_only { exCW with crossChecked := false } rfl).1
